import Mathlib

/-!
Verification development for the tree-gateway circuit-breaker core.

The definitions below are a shallow embedding of
`src/lib/circuitbreaker/express-circuit-breaker.ts` (the `CircuitBreaker`
state machine and the `ApiAuth` stage builder) and of the
`ApiCircuitBreaker` pipeline builder.  Asynchronous behaviour (timers,
response completion) is embedded as an explicit `Completion` argument
describing which of the two racing events happened first; event-emitter
broadcasts become an explicit event list.
-/

/-- Breaker states, from `export enum State {OPEN, CLOSED, HALF_OPEN}`. -/
inductive State
  | OPEN
  | CLOSED
  | HALF_OPEN
deriving DecidableEq, Repr

/-- The mutable state behind the `StateHandler` interface: the breaker
state, the failure counter, and the `halfOpenCallPending` flag. -/
structure StateHandler where
  state : State
  failures : Nat
  halfOpenCallPending : Bool
deriving DecidableEq, Repr

/-- Breaker options, from the `Options` interface (the `stateHandler`
member is passed explicitly as a `StateHandler` value instead). -/
structure Options where
  timeout : Nat
  resetTimeout : Nat
  maxFailures : Nat
deriving DecidableEq, Repr

def StateHandler.isOpen (s : StateHandler) : Bool :=
  decide (s.state = State.OPEN)

def StateHandler.isHalfOpen (s : StateHandler) : Bool :=
  decide (s.state = State.HALF_OPEN)

def StateHandler.isClosed (s : StateHandler) : Bool :=
  decide (s.state = State.CLOSED)

/-- Modelled from the spec: `RedisStateHandler` is not under `src/`.
Spec 4.1/4.4: `set_state` is a compare-and-swap that short-circuits when
the state already is the target, returning whether it changed. -/
def StateHandler.forceOpen (s : StateHandler) : Bool × StateHandler :=
  if s.state = State.OPEN then (false, s)
  else (true, { s with state := State.OPEN })

/-- Modelled from the spec: `RedisStateHandler` is not under `src/`.
Spec 4.4: entering CLOSED clears the failure counter and the pending
flag; the CAS short-circuits when already CLOSED. -/
def StateHandler.forceClose (s : StateHandler) : Bool × StateHandler :=
  if s.state = State.CLOSED then (false, s)
  else (true, { state := State.CLOSED, failures := 0, halfOpenCallPending := false })

/-- Modelled from the spec: `RedisStateHandler` is not under `src/`.
Spec 4.4: the OPEN to HALF_OPEN transition clears `halfOpenCallPending`;
the CAS short-circuits when already HALF_OPEN. -/
def StateHandler.forceHalfOpen (s : StateHandler) : Bool × StateHandler :=
  if s.state = State.HALF_OPEN then (false, s)
  else (true, { s with state := State.HALF_OPEN, halfOpenCallPending := false })

/-- Modelled from the spec: `RedisStateHandler` is not under `src/`.
Spec 4.1: `increment_failures` is atomic and returns the post-increment
count. -/
def StateHandler.incrementFailures (s : StateHandler) : Nat × StateHandler :=
  (s.failures + 1, { s with failures := s.failures + 1 })

/-- Modelled from the spec: initial state on configure is CLOSED,
failure counter zero, `halfOpenCallPending=false` (spec 4.4). -/
def initialState : StateHandler :=
  { state := State.CLOSED, failures := 0, halfOpenCallPending := false }

/-- Events broadcast by the breaker (the `EventEmitter` calls), plus the
scheduling of the OPEN to HALF_OPEN reset timer, recorded with its
duration in milliseconds. -/
inductive CBEvent
  | opened
  | closed
  | halfOpened
  | rejected
  | resetScheduled (ms : Nat)
deriving DecidableEq, Repr

/-- `CircuitBreaker.forceOpen`: CAS to OPEN via the state handler; on an
actual change, schedule the transition to HALF_OPEN after
`resetTimeout` and emit `open`; otherwise return with no effect. -/
def CircuitBreaker.forceOpen (opts : Options) (s : StateHandler) :
    StateHandler × List CBEvent :=
  match StateHandler.forceOpen s with
  | (false, s1) => (s1, [])
  | (true, s1) => (s1, [CBEvent.resetScheduled opts.resetTimeout, CBEvent.opened])

/-- `CircuitBreaker.forceClosed`: CAS to CLOSED via the state handler;
emit `close` only on an actual change. -/
def CircuitBreaker.forceClosed (s : StateHandler) :
    StateHandler × List CBEvent :=
  match StateHandler.forceClose s with
  | (false, s1) => (s1, [])
  | (true, s1) => (s1, [CBEvent.closed])

/-- `CircuitBreaker.forceHalfOpen`: CAS to HALF_OPEN; emit `halfOpen`
only on an actual change. -/
def CircuitBreaker.forceHalfOpen (s : StateHandler) :
    StateHandler × List CBEvent :=
  match StateHandler.forceHalfOpen s with
  | (false, s1) => (s1, [])
  | (true, s1) => (s1, [CBEvent.halfOpened])

/-- `CircuitBreaker.handleSuccess`: force CLOSED. -/
def CircuitBreaker.handleSuccess (s : StateHandler) :
    StateHandler × List CBEvent :=
  CircuitBreaker.forceClosed s

/-- `CircuitBreaker.handleFailure`: increment the failure counter via
the state handler; if the breaker is half-open or the post-increment
count reaches `maxFailures`, force OPEN. -/
def CircuitBreaker.handleFailure (opts : Options) (s : StateHandler) :
    StateHandler × List CBEvent :=
  let r := StateHandler.incrementFailures s
  let numFailures := r.1
  let s1 := r.2
  if s1.state = State.HALF_OPEN ∨ opts.maxFailures ≤ numFailures then
    CircuitBreaker.forceOpen opts s1
  else (s1, [])

/-- One pass of the breaker middleware, as observed from outside: the
state after the admission decision, the response written by the breaker
itself (if any), the events emitted, and whether the downstream chain
(`next` via `invokeApi`) was invoked. -/
structure MiddlewareStep where
  state : StateHandler
  response : Option (Nat × String)
  events : List CBEvent
  callsNext : Bool
deriving DecidableEq, Repr

/-- `CircuitBreaker.fastFail`: respond 503 with body
`CircuitBreaker open`, emit `rejected`, and do not call `next`. -/
def CircuitBreaker.fastFail (s : StateHandler) : MiddlewareStep :=
  { state := s
    response := some (503, "CircuitBreaker open")
    events := [CBEvent.rejected]
    callsNext := false }

/-- `CircuitBreaker.middleware`: if OPEN, or HALF_OPEN with a pending
probe, fast-fail; if HALF_OPEN with no pending probe, set the pending
flag and proceed; otherwise proceed. -/
def CircuitBreaker.middleware (s : StateHandler) : MiddlewareStep :=
  if s.isOpen || (s.isHalfOpen && s.halfOpenCallPending) then
    CircuitBreaker.fastFail s
  else if s.isHalfOpen && !s.halfOpenCallPending then
    { state := { s with halfOpenCallPending := true }
      response := none
      events := []
      callsNext := true }
  else
    { state := s
      response := none
      events := []
      callsNext := true }

/-- Which of the two racing events of `invokeApi` happened first: the
`options.timeout` timer fired (`timerFirst`, optionally followed by a
late downstream completion with the given status), or the downstream
response completed first with the given status (`responseFirst`). -/
inductive Completion
  | timerFirst (late : Option Nat)
  | responseFirst (status : Nat)
deriving DecidableEq, Repr

/-- The observable outcome of `invokeApi` for one admitted request. -/
structure InvokeResult where
  state : StateHandler
  events : List CBEvent
  breakerResponse : Option (Nat × String)
  timerArmedMs : Nat
  timerCancelled : Bool
  forwarded : Bool
  lateForwarded : Bool
  successes : Nat
  failures : Nat
deriving DecidableEq, Repr

/-- `CircuitBreaker.invokeApi`: arm a timer of `options.timeout` ms and
wrap `res.end`.  If the response completes first, cancel the timer and
inspect the status: at least 500 clears `halfOpenCallPending` and calls
`handleFailure`, below 500 calls `handleSuccess`; the original `end` is
then restored and applied.  If the timer fires first, `operationTimeout`
is set, `handleTimeout` calls `handleFailure` and responds 504
`CircuitBreaker timeout`; a late completion finds `operationTimeout`
true, so it is forwarded without any observation. -/
def CircuitBreaker.invokeApi (opts : Options) (s : StateHandler)
    (c : Completion) : InvokeResult :=
  match c with
  | Completion.responseFirst status =>
    if 500 ≤ status then
      let s1 := { s with halfOpenCallPending := false }
      let out := CircuitBreaker.handleFailure opts s1
      { state := out.1
        events := out.2
        breakerResponse := none
        timerArmedMs := opts.timeout
        timerCancelled := true
        forwarded := true
        lateForwarded := false
        successes := 0
        failures := 1 }
    else
      let out := CircuitBreaker.handleSuccess s
      { state := out.1
        events := out.2
        breakerResponse := none
        timerArmedMs := opts.timeout
        timerCancelled := true
        forwarded := true
        lateForwarded := false
        successes := 1
        failures := 0 }
  | Completion.timerFirst late =>
    let out := CircuitBreaker.handleFailure opts s
    { state := out.1
      events := out.2
      breakerResponse := some (504, "CircuitBreaker timeout")
      timerArmedMs := opts.timeout
      timerCancelled := false
      forwarded := true
      lateForwarded := late.isSome
      successes := 0
      failures := 1 }

/-- `k` consecutive failure observations (`handleFailure` applied `k`
times), tracking only the state-handler state. -/
def iterateFailures (opts : Options) : Nat → StateHandler → StateHandler
  | 0, s => s
  | k + 1, s => (CircuitBreaker.handleFailure opts (iterateFailures opts k s)).1

/-- A circuit-breaker config entry; fields from spec section 3
(`src/config/circuit-breaker` is not under `src/`): optional timings,
failure bound and group scope. -/
structure CircuitBreakerConfig where
  timeout : Option Nat
  resetTimeout : Option Nat
  maxFailures : Option Nat
  group : Option (List String)
deriving DecidableEq, Repr

/-- JavaScript `x || d` on an optional number: `undefined` and `0` are
falsy, so both fall back to the default. -/
def jsOrNat (v : Option Nat) (d : Nat) : Nat :=
  match v with
  | none => d
  | some 0 => d
  | some n => n

/-- The `cbOptions` object built by `ApiCircuitBreaker.circuitBreaker`:
`timeout || 30000`, `resetTimeout || 120000`, `maxFailures || 10`. -/
def buildCbOptions (cfg : CircuitBreakerConfig) : Options :=
  { timeout := jsOrNat cfg.timeout 30000
    resetTimeout := jsOrNat cfg.resetTimeout 120000
    maxFailures := jsOrNat cfg.maxFailures 10 }

/-- JavaScript `Array.prototype.indexOf` restricted to the use in this
code (the element is present): index of the first equal element. -/
def jsIndexOf {α : Type} [DecidableEq α] : List α → α → Nat
  | [], _ => 0
  | x :: t, a => if x = a then 0 else jsIndexOf t a + 1

/-- `splice(i, 1)` as seen by the remaining array: the list with the
element at index `i` removed. -/
def spliceRemove {α : Type} : List α → Nat → List α
  | [], _ => []
  | _ :: t, 0 => t
  | x :: t, i + 1 => x :: spliceRemove t i

/-- An element of the array returned by `sortBreakers`.  The source does
`breakers.push(gen)` where `gen` is the array returned by `splice`, so
the pushed element is an array of configs, not a config; `arr` records
that case. -/
inductive BreakerEntry
  | cfg (c : CircuitBreakerConfig)
  | arr (l : List CircuitBreakerConfig)
deriving DecidableEq, Repr

/-- `ApiCircuitBreaker.sortBreakers`: collect into `generalBreakers` the
entries for which `value.group` is set (the filter returns `true` when
`value.group` is truthy); if more than one, log an error and return the
empty list; if exactly one and it is not already last, splice it out and
push the spliced array. -/
def ApiCircuitBreaker.sortBreakers (breakers : List CircuitBreakerConfig) :
    List BreakerEntry :=
  let generalBreakers := breakers.filter (fun v => v.group.isSome)
  if 1 < generalBreakers.length then []
  else
    match generalBreakers with
    | [] => breakers.map BreakerEntry.cfg
    | g :: _ =>
      let index := jsIndexOf breakers g
      if index < breakers.length - 1 then
        (spliceRemove breakers index).map BreakerEntry.cfg
          ++ [BreakerEntry.arr [g]]
      else breakers.map BreakerEntry.cfg

/-- An authentication config entry, from spec section 3
(`src/config/authentication` is not under `src/`):
`{ strategy, group?, use? }`, the strategy kept as its name. -/
structure ApiAuthenticationConfig where
  strategy : Option String
  group : Option (List String)
  use : Option String
deriving DecidableEq, Repr

/-- The pipeline-level config: an optional dictionary of shared
authentication entries keyed by id, for `use` resolution. -/
structure ApiPipelineConfig where
  authentication : Option (List (String × ApiAuthenticationConfig))
deriving DecidableEq, Repr

/-- Dictionary lookup `pipelineConfig.authentication[use]`. -/
def lookupAuth (dict : List (String × ApiAuthenticationConfig))
    (k : String) : Option ApiAuthenticationConfig :=
  match dict with
  | [] => none
  | (k2, v) :: t => if k2 = k then some v else lookupAuth t k

/-- lodash `_.defaults(authentication, ref)`: fill each missing field of
the entry from the referenced entry. -/
def authDefaults (a ref : ApiAuthenticationConfig) : ApiAuthenticationConfig :=
  { strategy := match a.strategy with | some s => some s | none => ref.strategy
    group := match a.group with | some g => some g | none => ref.group
    use := match a.use with | some u => some u | none => ref.use }

/-- `ApiAuth.resolveReferences`: when the entry has a `use` reference
and the pipeline config has an authentication dictionary, default the
entry against the referenced dictionary entry, or throw when the id is
unknown; otherwise return the entry unchanged. -/
def ApiAuth.resolveReferences (a : ApiAuthenticationConfig)
    (pipe : ApiPipelineConfig) : Except String ApiAuthenticationConfig :=
  match a.use, pipe.authentication with
  | some u, some dict =>
    match lookupAuth dict u with
    | some ref => Except.ok (authDefaults a ref)
    | none => Except.error ("Invalid reference " ++ u ++ ". There is no configuration for this id.")
  | some _, none => Except.ok a
  | none, _ => Except.ok a

/-- The stage installed for one authentication entry: a plain
authenticator (`createAuthenticator`) or a group-gated one
(`createAuthenticatorForGroup`), carrying the resolved config. -/
inductive AuthStage
  | plain (cfg : ApiAuthenticationConfig)
  | groupGated (cfg : ApiAuthenticationConfig)
deriving DecidableEq, Repr

/-- The body of the `forEach` in `ApiAuth.authentication` for one entry:
resolve references (a thrown error is caught, logged and yields no
stage), load the strategy (`load` abstracts `middlewareLoader`, `false`
meaning no strategy, which is logged and yields no stage), then install
a group-gated stage when the resolved entry names groups, a plain one
otherwise. -/
def ApiAuth.configureOne (load : Option String → Bool)
    (pipe : ApiPipelineConfig) (a : ApiAuthenticationConfig) :
    Option AuthStage :=
  match ApiAuth.resolveReferences a pipe with
  | Except.error _ => none
  | Except.ok a2 =>
    if load a2.strategy then
      if a2.group.isSome then some (AuthStage.groupGated a2)
      else some (AuthStage.plain a2)
    else none

/-- The `forEach` loop of `ApiAuth.authentication` over a list of
entries: each entry is configured independently, inside its own
`try`/`catch`. -/
def ApiAuth.configureEntries (load : Option String → Bool)
    (pipe : ApiPipelineConfig) (l : List ApiAuthenticationConfig) :
    List (Option AuthStage) :=
  l.map (ApiAuth.configureOne load pipe)

/-- `ApiAuth.sortMiddlewares`: collect into `generalMiddlewares` the
entries without a group; if more than one, log an error and return the
empty list; if exactly one and it is not already last, splice it out and
push it (the element, `gen[0]`) at the end. -/
def ApiAuth.sortMiddlewares (middlewares : List ApiAuthenticationConfig) :
    List ApiAuthenticationConfig :=
  let generalMiddlewares := middlewares.filter (fun v => v.group.isNone)
  if 1 < generalMiddlewares.length then []
  else
    match generalMiddlewares with
    | [] => middlewares
    | g :: _ =>
      let index := jsIndexOf middlewares g
      if index < middlewares.length - 1 then
        spliceRemove middlewares index ++ [g]
      else middlewares

/-- `ApiAuth.authentication` for one API: sort the entries, then run the
configuration loop over the sorted list. -/
def ApiAuth.authentication (load : Option String → Bool)
    (pipe : ApiPipelineConfig) (l : List ApiAuthenticationConfig) :
    List (Option AuthStage) :=
  ApiAuth.configureEntries load pipe (ApiAuth.sortMiddlewares l)

/-- What a group gate does with one request: run the wrapped handler, or
bypass it by calling `next()`. -/
inductive GateAction
  | runWrapped
  | bypassNext
deriving DecidableEq, Repr

/-- `ApiCircuitBreaker.buildMiddleware`, decision part: when the breaker
info has a `groupValidator`, run the breaker middleware only when the
validator accepts the request, else call `next()`; with no validator,
always run it. -/
def ApiCircuitBreaker.buildMiddleware {ρ : Type}
    (groupValidator : Option (ρ → Bool)) (req : ρ) : GateAction :=
  match groupValidator with
  | some f => if f req then GateAction.runWrapped else GateAction.bypassNext
  | none => GateAction.runWrapped

/-- `ApiAuth.createAuthenticatorForGroup`, decision part (identical in
both the request-logging and plain variants): run the authenticator when
the compiled group filter `f` accepts the request, else call `next()`. -/
def ApiAuth.createAuthenticatorForGroup {ρ : Type}
    (f : ρ → Bool) (req : ρ) : GateAction :=
  if f req then GateAction.runWrapped else GateAction.bypassNext

/-- A breaker config with no group (a "default" entry). -/
def dfltBreaker : CircuitBreakerConfig :=
  { timeout := none, resetTimeout := none, maxFailures := none, group := none }

/-- A breaker config scoped to group `g1`. -/
def groupBreaker : CircuitBreakerConfig :=
  { timeout := none, resetTimeout := none, maxFailures := none, group := some ["g1"] }

/-- An authentication config with no group (a "general" entry). -/
def authD : ApiAuthenticationConfig :=
  { strategy := some "basic", group := none, use := none }

/-- An authentication config scoped to group `g1`. -/
def authG : ApiAuthenticationConfig :=
  { strategy := some "jwt", group := some ["g1"], use := none }

/-- An authentication config whose `use` names an id that no pipeline
dictionary defines. -/
def useRefCfg : ApiAuthenticationConfig :=
  { strategy := some "jwt", group := none, use := some "missing" }

/-- An authentication config carrying only a `use` reference to the
pipeline entry with id `db`. -/
def authUseDb : ApiAuthenticationConfig :=
  { strategy := none, group := none, use := some "db" }

theorem forceOpen_failures (opts : Options) (s : StateHandler) :
    (CircuitBreaker.forceOpen opts s).1.failures = s.failures := by
  unfold CircuitBreaker.forceOpen StateHandler.forceOpen
  by_cases h : s.state = State.OPEN <;> simp [h]

theorem forceOpen_pending (opts : Options) (s : StateHandler) :
    (CircuitBreaker.forceOpen opts s).1.halfOpenCallPending = s.halfOpenCallPending := by
  unfold CircuitBreaker.forceOpen StateHandler.forceOpen
  by_cases h : s.state = State.OPEN <;> simp [h]

theorem handleFailure_failures (opts : Options) (s : StateHandler) :
    (CircuitBreaker.handleFailure opts s).1.failures = s.failures + 1 := by
  unfold CircuitBreaker.handleFailure StateHandler.incrementFailures
  by_cases h : ({ s with failures := s.failures + 1 } : StateHandler).state = State.HALF_OPEN ∨
      opts.maxFailures ≤ s.failures + 1
  · simp only [if_pos h, forceOpen_failures]
  · simp only [if_neg h]

theorem handleFailure_pending (opts : Options) (s : StateHandler) :
    (CircuitBreaker.handleFailure opts s).1.halfOpenCallPending = s.halfOpenCallPending := by
  unfold CircuitBreaker.handleFailure StateHandler.incrementFailures
  by_cases h : ({ s with failures := s.failures + 1 } : StateHandler).state = State.HALF_OPEN ∨
      opts.maxFailures ≤ s.failures + 1
  · simp only [if_pos h, forceOpen_pending]
  · simp only [if_neg h]

/-- C1: for every incoming request, admission is decided from the
current state: OPEN, or HALF_OPEN with a pending probe, answers 503
`CircuitBreaker open`, emits `rejected` and never calls the downstream
handler; HALF_OPEN without a pending probe sets `halfOpenCallPending`
and proceeds as the probe; CLOSED proceeds with the state unchanged. -/
theorem middleware_admission (s : StateHandler) :
    ((s.state = State.OPEN ∨ (s.state = State.HALF_OPEN ∧ s.halfOpenCallPending = true)) →
      CircuitBreaker.middleware s =
        { state := s
          response := some (503, "CircuitBreaker open")
          events := [CBEvent.rejected]
          callsNext := false }) ∧
    ((s.state = State.HALF_OPEN ∧ s.halfOpenCallPending = false) →
      CircuitBreaker.middleware s =
        { state := { s with halfOpenCallPending := true }
          response := none
          events := []
          callsNext := true }) ∧
    (s.state = State.CLOSED →
      CircuitBreaker.middleware s =
        { state := s
          response := none
          events := []
          callsNext := true }) := by
  obtain ⟨st, f, p⟩ := s
  cases st <;> cases p <;>
    simp [CircuitBreaker.middleware, CircuitBreaker.fastFail,
      StateHandler.isOpen, StateHandler.isHalfOpen]

theorem middleware_admission_witness :
    CircuitBreaker.middleware { state := State.OPEN, failures := 5, halfOpenCallPending := false } =
      { state := { state := State.OPEN, failures := 5, halfOpenCallPending := false }
        response := some (503, "CircuitBreaker open")
        events := [CBEvent.rejected]
        callsNext := false } :=
  (middleware_admission _).1 (Or.inl rfl)

/-- C5: for every admitted request the breaker arms a timer of
`options.timeout` ms; when the timer fires first the operation is
marked timed out, the client gets 504 `CircuitBreaker timeout`,
`handleFailure` runs, and the failure counter increments by exactly
one. -/
theorem invokeApi_timeout (opts : Options) (s : StateHandler) (late : Option Nat) :
    (CircuitBreaker.invokeApi opts s (Completion.timerFirst late)).timerArmedMs = opts.timeout ∧
    (CircuitBreaker.invokeApi opts s (Completion.timerFirst late)).breakerResponse =
      some (504, "CircuitBreaker timeout") ∧
    (CircuitBreaker.invokeApi opts s (Completion.timerFirst late)).failures = 1 ∧
    (CircuitBreaker.invokeApi opts s (Completion.timerFirst late)).state.failures =
      s.failures + 1 := by
  refine ⟨rfl, rfl, rfl, ?_⟩
  simp only [CircuitBreaker.invokeApi]
  exact handleFailure_failures opts s

/-- C6: for every admitted request whose downstream response completes
before the timer fires, the timer is cancelled and the status is
inspected: at least 500 clears `halfOpenCallPending` (in particular when
the state is HALF_OPEN) and calls `handleFailure`; below 500 calls
`handleSuccess`. -/
theorem invokeApi_completion (opts : Options) (s : StateHandler) (status : Nat) :
    (CircuitBreaker.invokeApi opts s (Completion.responseFirst status)).timerCancelled = true ∧
    (CircuitBreaker.invokeApi opts s (Completion.responseFirst status)).breakerResponse = none ∧
    (500 ≤ status →
      (CircuitBreaker.invokeApi opts s (Completion.responseFirst status)).failures = 1 ∧
      (CircuitBreaker.invokeApi opts s (Completion.responseFirst status)).successes = 0 ∧
      (CircuitBreaker.invokeApi opts s (Completion.responseFirst status)).state.failures =
        s.failures + 1 ∧
      (s.state = State.HALF_OPEN →
        (CircuitBreaker.invokeApi opts s (Completion.responseFirst status)).state.halfOpenCallPending =
          false)) ∧
    (status < 500 →
      (CircuitBreaker.invokeApi opts s (Completion.responseFirst status)).successes = 1 ∧
      (CircuitBreaker.invokeApi opts s (Completion.responseFirst status)).failures = 0) := by
  by_cases h : 500 ≤ status
  · refine ⟨by simp [CircuitBreaker.invokeApi, h], by simp [CircuitBreaker.invokeApi, h],
      fun _ => ⟨by simp [CircuitBreaker.invokeApi, h], by simp [CircuitBreaker.invokeApi, h],
        ?_, fun _ => ?_⟩,
      fun hlt => absurd h (by omega)⟩
    · simp only [CircuitBreaker.invokeApi, if_pos h]
      exact handleFailure_failures opts _
    · simp only [CircuitBreaker.invokeApi, if_pos h]
      rw [handleFailure_pending]
  · refine ⟨by simp [CircuitBreaker.invokeApi, h], by simp [CircuitBreaker.invokeApi, h],
      fun hge => absurd hge h,
      fun _ => ⟨by simp [CircuitBreaker.invokeApi, h], by simp [CircuitBreaker.invokeApi, h]⟩⟩

theorem invokeApi_completion_witness :
    (CircuitBreaker.invokeApi { timeout := 100, resetTimeout := 1000, maxFailures := 3 }
        { state := State.HALF_OPEN, failures := 0, halfOpenCallPending := true }
        (Completion.responseFirst 500)).state.halfOpenCallPending = false :=
  (((invokeApi_completion { timeout := 100, resetTimeout := 1000, maxFailures := 3 }
      { state := State.HALF_OPEN, failures := 0, halfOpenCallPending := true }
      500).2.2.1 (by decide)).2.2.2) (by decide)

/-- C7: a probe success in HALF_OPEN transitions to CLOSED, clears the
failure counter and the pending flag, and emits `close`; a success
observed while already CLOSED emits nothing; a probe failure in
HALF_OPEN transitions to OPEN, re-arming the `resetTimeout` timer and
emitting `open`. -/
theorem probe_transitions (opts : Options) (s : StateHandler) :
    (s.state = State.HALF_OPEN →
      CircuitBreaker.handleSuccess s =
        ({ state := State.CLOSED, failures := 0, halfOpenCallPending := false },
         [CBEvent.closed])) ∧
    (s.state = State.CLOSED → CircuitBreaker.handleSuccess s = (s, [])) ∧
    (s.state = State.HALF_OPEN →
      CircuitBreaker.handleFailure opts s =
        ({ state := State.OPEN, failures := s.failures + 1,
           halfOpenCallPending := s.halfOpenCallPending },
         [CBEvent.resetScheduled opts.resetTimeout, CBEvent.opened])) := by
  obtain ⟨st, f, p⟩ := s
  refine ⟨fun h => ?_, fun h => ?_, fun h => ?_⟩ <;>
    subst h <;>
    simp [CircuitBreaker.handleSuccess, CircuitBreaker.forceClosed,
      StateHandler.forceClose, CircuitBreaker.handleFailure,
      StateHandler.incrementFailures, CircuitBreaker.forceOpen,
      StateHandler.forceOpen]

theorem probe_transitions_witness :
    CircuitBreaker.handleSuccess { state := State.HALF_OPEN, failures := 2, halfOpenCallPending := true } =
      ({ state := State.CLOSED, failures := 0, halfOpenCallPending := false }, [CBEvent.closed]) :=
  (probe_transitions { timeout := 100, resetTimeout := 1000, maxFailures := 3 }
    { state := State.HALF_OPEN, failures := 2, halfOpenCallPending := true }).1 rfl

/-- C10: for every admitted request at most one breaker outcome is
recorded: once the timeout timer has fired, a late downstream completion
is still forwarded to the client but invokes neither `handleSuccess` nor
`handleFailure`; the breaker state and events are exactly those of the
timeout alone. -/
theorem single_outcome (opts : Options) (s : StateHandler) (status : Nat) :
    (CircuitBreaker.invokeApi opts s (Completion.timerFirst (some status))).lateForwarded = true ∧
    (CircuitBreaker.invokeApi opts s (Completion.timerFirst (some status))).forwarded = true ∧
    (CircuitBreaker.invokeApi opts s (Completion.timerFirst (some status))).successes = 0 ∧
    (CircuitBreaker.invokeApi opts s (Completion.timerFirst (some status))).failures = 1 ∧
    (CircuitBreaker.invokeApi opts s (Completion.timerFirst (some status))).state =
      (CircuitBreaker.invokeApi opts s (Completion.timerFirst none)).state ∧
    (CircuitBreaker.invokeApi opts s (Completion.timerFirst (some status))).events =
      (CircuitBreaker.invokeApi opts s (Completion.timerFirst none)).events :=
  ⟨rfl, rfl, rfl, rfl, rfl, rfl⟩

theorem iterate_closed (opts : Options) :
    ∀ k, k < opts.maxFailures →
      iterateFailures opts k initialState =
        { state := State.CLOSED, failures := k, halfOpenCallPending := false } := by
  intro k
  induction k with
  | zero => intro _; rfl
  | succ n ih =>
    intro h
    have hn : n < opts.maxFailures := Nat.lt_of_succ_lt h
    show (CircuitBreaker.handleFailure opts (iterateFailures opts n initialState)).1 = _
    rw [ih hn]
    unfold CircuitBreaker.handleFailure StateHandler.incrementFailures
    rw [if_neg]
    rintro (hc | hc)
    · exact State.noConfusion hc
    · dsimp only at hc
      omega

/-- C2: `handleFailure` increments the failure counter through the
state handler and forces OPEN exactly when the post-increment count
reaches `maxFailures` or the state is HALF_OPEN; consequently, after
exactly `maxFailures` consecutive failures from CLOSED with counter
zero the breaker is OPEN, and before that every request was still
admitted (the middleware called the downstream handler). -/
theorem handleFailure_spec (opts : Options) (s : StateHandler) :
    ((s.state = State.HALF_OPEN ∨ opts.maxFailures ≤ s.failures + 1) →
      CircuitBreaker.handleFailure opts s =
        CircuitBreaker.forceOpen opts { s with failures := s.failures + 1 }) ∧
    ((s.state ≠ State.HALF_OPEN ∧ s.failures + 1 < opts.maxFailures) →
      CircuitBreaker.handleFailure opts s = ({ s with failures := s.failures + 1 }, [])) ∧
    (0 < opts.maxFailures →
      (∀ k, k < opts.maxFailures →
        (iterateFailures opts k initialState).state = State.CLOSED ∧
        (CircuitBreaker.middleware (iterateFailures opts k initialState)).callsNext = true) ∧
      (iterateFailures opts opts.maxFailures initialState).state = State.OPEN) := by
  refine ⟨fun h => ?_, fun h => ?_, fun hpos => ⟨fun k hk => ?_, ?_⟩⟩
  · unfold CircuitBreaker.handleFailure StateHandler.incrementFailures
    rw [if_pos h]
  · unfold CircuitBreaker.handleFailure StateHandler.incrementFailures
    rw [if_neg]
    rintro (hc | hc)
    · exact h.1 hc
    · omega
  · rw [iterate_closed opts k hk]
    exact ⟨rfl, by
      simp [CircuitBreaker.middleware, StateHandler.isOpen, StateHandler.isHalfOpen]⟩
  · obtain ⟨m, hm⟩ : ∃ m, opts.maxFailures = m + 1 :=
      ⟨opts.maxFailures - 1, by omega⟩
    rw [hm]
    show (CircuitBreaker.handleFailure opts (iterateFailures opts m initialState)).1.state = _
    rw [iterate_closed opts m (by omega)]
    unfold CircuitBreaker.handleFailure StateHandler.incrementFailures
    rw [if_pos (Or.inr (by dsimp only; omega))]
    unfold CircuitBreaker.forceOpen StateHandler.forceOpen
    rw [if_neg (by exact fun hc => State.noConfusion hc)]

theorem handleFailure_spec_witness :
    CircuitBreaker.handleFailure { timeout := 100, resetTimeout := 1000, maxFailures := 3 }
        { state := State.HALF_OPEN, failures := 0, halfOpenCallPending := true } =
      CircuitBreaker.forceOpen { timeout := 100, resetTimeout := 1000, maxFailures := 3 }
        { state := State.HALF_OPEN, failures := 1, halfOpenCallPending := true } ∧
    CircuitBreaker.handleFailure { timeout := 100, resetTimeout := 1000, maxFailures := 3 }
        { state := State.CLOSED, failures := 0, halfOpenCallPending := false } =
      ({ state := State.CLOSED, failures := 1, halfOpenCallPending := false }, []) ∧
    (iterateFailures { timeout := 100, resetTimeout := 1000, maxFailures := 3 } 3
      initialState).state = State.OPEN :=
  ⟨(handleFailure_spec _ _).1 (Or.inl rfl),
   (handleFailure_spec _ _).2.1 ⟨by decide, by decide⟩,
   ((handleFailure_spec { timeout := 100, resetTimeout := 1000, maxFailures := 3 }
      initialState).2.2 (by decide)).2⟩

/-- C3: evaluation of `ApiCircuitBreaker.sortBreakers` at the inputs
that decide the claim.  With one group-less (default) and one
group-scoped config the default is NOT moved to the end (the function
filters the entries WITH a group as `generalBreakers`, and the group
entry is already last, so the list comes back unchanged, default
first); with two group-less configs the list is NOT rejected but
returned unchanged. -/
theorem sortBreakers_bug_eval :
    ApiCircuitBreaker.sortBreakers [dfltBreaker, groupBreaker] =
      [BreakerEntry.cfg dfltBreaker, BreakerEntry.cfg groupBreaker] ∧
    ApiCircuitBreaker.sortBreakers [dfltBreaker, dfltBreaker] =
      [BreakerEntry.cfg dfltBreaker, BreakerEntry.cfg dfltBreaker] := by
  exact ⟨rfl, rfl⟩

theorem filter_neg_eq_self {α : Type} (p : α → Bool) :
    ∀ l : List α, l.filter p = [] → l.filter (fun x => !p x) = l := by
  intro l
  induction l with
  | nil => intro _; rfl
  | cons a t ih =>
    intro h
    by_cases hp : p a = true
    · rw [List.filter_cons, if_pos hp] at h
      exact absurd h (List.cons_ne_nil _ _)
    · have hpa : p a = false := by revert hp; cases p a <;> simp
      rw [List.filter_cons, hpa] at h
      simp only [Bool.false_eq_true, if_false] at h
      rw [List.filter_cons]
      simp only [hpa, Bool.not_false, if_true]
      rw [ih h]

theorem filter_single_pred {α : Type} (p : α → Bool) :
    ∀ l : List α, ∀ g : α, l.filter p = [g] → p g = true := by
  intro l g h
  have hg : g ∈ l.filter p := by rw [h]; exact List.mem_singleton_self g
  exact (List.mem_filter.mp hg).2

theorem splice_at_index {α : Type} [DecidableEq α] (p : α → Bool) :
    ∀ l : List α, ∀ g : α, l.filter p = [g] →
      spliceRemove l (jsIndexOf l g) = l.filter (fun x => !p x) := by
  intro l
  induction l with
  | nil => intro g h; simp [List.filter] at h
  | cons a t ih =>
    intro g h
    by_cases hp : p a = true
    · rw [List.filter_cons, if_pos hp] at h
      injection h with h1 h2
      subst h1
      simp only [jsIndexOf, if_pos rfl, spliceRemove]
      rw [List.filter_cons]
      simp only [hp, Bool.not_true, Bool.false_eq_true, if_false]
      exact (filter_neg_eq_self p t h2).symm
    · have hpa : p a = false := by revert hp; cases p a <;> simp
      rw [List.filter_cons, hpa] at h
      simp only [Bool.false_eq_true, if_false] at h
      have hg : p g = true := filter_single_pred p t g h
      have hag : a ≠ g := fun e => by rw [e, hg] at hpa; exact Bool.noConfusion hpa
      simp only [jsIndexOf, if_neg hag, spliceRemove]
      rw [ih g h, List.filter_cons]
      simp only [hpa, Bool.not_false, if_true]

theorem last_general {α : Type} [DecidableEq α] (p : α → Bool) :
    ∀ l : List α, ∀ g : α, l.filter p = [g] →
      ¬ (jsIndexOf l g < l.length - 1) →
      l = l.filter (fun x => !p x) ++ [g] := by
  intro l
  induction l with
  | nil => intro g h _; simp [List.filter] at h
  | cons a t ih =>
    intro g h hidx
    by_cases hp : p a = true
    · rw [List.filter_cons, if_pos hp] at h
      injection h with h1 h2
      subst h1
      simp only [jsIndexOf, if_pos rfl, List.length_cons] at hidx
      have ht : t = [] := by
        cases t with
        | nil => rfl
        | cons b t2 => exact absurd (by simp) hidx
      subst ht
      rw [List.filter_cons]
      simp only [hp, Bool.not_true, Bool.false_eq_true, if_false]
      rfl
    · have hpa : p a = false := by revert hp; cases p a <;> simp
      rw [List.filter_cons, hpa] at h
      simp only [Bool.false_eq_true, if_false] at h
      have hg : p g = true := filter_single_pred p t g h
      have hag : a ≠ g := fun e => by rw [e, hg] at hpa; exact Bool.noConfusion hpa
      simp only [jsIndexOf, if_neg hag, List.length_cons] at hidx
      have hidx2 : ¬ (jsIndexOf t g < t.length - 1) := by omega
      rw [List.filter_cons]
      simp only [hpa, Bool.not_false, if_true]
      rw [List.cons_append]
      exact congrArg (a :: ·) (ih g h hidx2)

/-- C4: `sortMiddlewares` treats an entry as general exactly when its
`group` is absent: with two or more group-less entries the empty list
is returned (no authentication stage installed); with exactly one, that
entry is moved to the end, the group-scoped entries keeping their
relative order; with none the list is unchanged. -/
theorem sortMiddlewares_spec (l : List ApiAuthenticationConfig) :
    (2 ≤ (l.filter (fun v => v.group.isNone)).length →
      ApiAuth.sortMiddlewares l = []) ∧
    (∀ g, l.filter (fun v => v.group.isNone) = [g] →
      ApiAuth.sortMiddlewares l = l.filter (fun v => v.group.isSome) ++ [g]) ∧
    (l.filter (fun v => v.group.isNone) = [] → ApiAuth.sortMiddlewares l = l) := by
  have hsome : l.filter (fun v => v.group.isSome) =
      l.filter (fun v => !(fun w : ApiAuthenticationConfig => w.group.isNone) v) := by
    apply List.filter_congr
    intro x _
    cases h : x.group <;> simp [h]
  refine ⟨fun h2 => ?_, fun g hg => ?_, fun h0 => ?_⟩
  · unfold ApiAuth.sortMiddlewares
    rw [if_pos (by omega)]
  · unfold ApiAuth.sortMiddlewares
    rw [hg, if_neg (by simp), hsome]
    dsimp only
    by_cases hi : jsIndexOf l g < l.length - 1
    · rw [if_pos hi, splice_at_index _ l g hg]
    · rw [if_neg hi]
      exact last_general _ l g hg hi
  · unfold ApiAuth.sortMiddlewares
    rw [h0, if_neg (by simp)]

theorem sortMiddlewares_spec_witness :
    ApiAuth.sortMiddlewares [authD, authG] = [authG, authD] ∧
    ApiAuth.sortMiddlewares [authD, authD] = [] := by
  constructor
  · exact (sortMiddlewares_spec [authD, authG]).2.1 authD (by decide)
  · exact (sortMiddlewares_spec [authD, authD]).1 (by decide)

/-- C8: a group-scoped stage (breaker or authenticator) runs its
wrapped handler exactly when the compiled group filter accepts the
request; when the filter rejects, the stage calls `next()` and the
request passes on to the following stage. -/
theorem group_gate_spec {ρ : Type} (f : ρ → Bool) (req : ρ) :
    (ApiCircuitBreaker.buildMiddleware (some f) req = GateAction.runWrapped ↔
      f req = true) ∧
    (f req = false →
      ApiCircuitBreaker.buildMiddleware (some f) req = GateAction.bypassNext) ∧
    (ApiAuth.createAuthenticatorForGroup f req = GateAction.runWrapped ↔
      f req = true) ∧
    (f req = false →
      ApiAuth.createAuthenticatorForGroup f req = GateAction.bypassNext) := by
  cases hf : f req <;>
    simp [ApiCircuitBreaker.buildMiddleware, ApiAuth.createAuthenticatorForGroup, hf]

theorem group_gate_spec_witness :
    ApiCircuitBreaker.buildMiddleware (some (fun n : Nat => decide (n = 0))) 1 =
      GateAction.bypassNext ∧
    ApiAuth.createAuthenticatorForGroup (fun n : Nat => decide (n = 0)) 1 =
      GateAction.bypassNext :=
  ⟨(group_gate_spec (fun n : Nat => decide (n = 0)) 1).2.1 (by decide),
   (group_gate_spec (fun n : Nat => decide (n = 0)) 1).2.2.2 (by decide)⟩

/-- C9, counterexample to the claim as stated: when the pipeline config
has no authentication dictionary, an entry whose `use` names an unknown
id raises no error at all; the entry is configured as-is and the stage
is installed. -/
theorem resolveReferences_no_dict :
    ApiAuth.resolveReferences useRefCfg { authentication := none } =
      Except.ok useRefCfg ∧
    ApiAuth.configureEntries (fun _ => true) { authentication := none } [useRefCfg] =
      [some (AuthStage.plain useRefCfg)] :=
  ⟨rfl, rfl⟩

/-- C9 (amended): when the pipeline config carries an authentication
dictionary, an entry with a `use` reference is defaulted against the
referenced dictionary entry; a `use` id missing from the dictionary
raises an error that is caught per entry, so only that stage is skipped
while every other entry of the list is configured exactly as it would
be on its own. -/
theorem resolveReferences_spec (dict : List (String × ApiAuthenticationConfig))
    (load : Option String → Bool) (l : List ApiAuthenticationConfig)
    (i : Nat) (a : ApiAuthenticationConfig) (u : String)
    (ha : l[i]? = some a) (hu : a.use = some u) :
    (∀ ref, lookupAuth dict u = some ref →
      ApiAuth.resolveReferences a { authentication := some dict } =
        Except.ok (authDefaults a ref)) ∧
    (lookupAuth dict u = none →
      (ApiAuth.configureEntries load { authentication := some dict } l)[i]? =
        some none ∧
      ∀ j, j ≠ i →
        (ApiAuth.configureEntries load { authentication := some dict } l)[j]? =
          (l[j]?).map (ApiAuth.configureOne load { authentication := some dict })) := by
  refine ⟨fun ref href => ?_, fun hnone => ⟨?_, fun j _ => ?_⟩⟩
  · unfold ApiAuth.resolveReferences
    rw [hu]
    dsimp only
    rw [href]
  · unfold ApiAuth.configureEntries
    rw [List.getElem?_map, ha]
    dsimp only [Option.map]
    unfold ApiAuth.configureOne ApiAuth.resolveReferences
    rw [hu]
    dsimp only
    rw [hnone]
  · unfold ApiAuth.configureEntries
    rw [List.getElem?_map]

theorem resolveReferences_spec_witness :
    ApiAuth.resolveReferences authUseDb { authentication := some [("db", authD)] } =
      Except.ok (authDefaults authUseDb authD) ∧
    (ApiAuth.configureEntries (fun _ => true)
        { authentication := some [("db", authD)] } [useRefCfg, authD])[0]? =
      some none :=
  ⟨(resolveReferences_spec [("db", authD)] (fun _ => true) [authUseDb] 0 authUseDb
      "db" rfl rfl).1 authD rfl,
   ((resolveReferences_spec [("db", authD)] (fun _ => true) [useRefCfg, authD] 0 useRefCfg
      "missing" rfl rfl).2 (by decide)).1⟩
